import Mathlib

/-!
Verification of the deepdoctection document-view core (`deepdoctection/datapoint/view.py`):
the typed view hierarchy (`Word`/`Layout`/`Cell`/`Table`), `Page` accessors and chunking,
the generic attribute-resolution protocol of `ImageAnnotationBaseView.__getattr__`, and the
`Document` multi-page entity stitching pipeline.

Conventions of the embedding:

* Python `float` page geometry is modelled with `ℚ` (the code only compares and scales
  coordinates, so the reals involved are exact).
* Python `None` becomes `Option`; Python truthiness of an optional integer is `py_truthy_int`
  (`None` and `0` are falsy).
* Python dicts that are used in insertion order are association lists.
* Logging (`logger.warning`) is a no-op and is dropped.
-/

/-! ### Python list and sorting helpers -/

/-- Python `list.index(x)` on a list of strings: the first index whose element equals `x`,
or `none` when `x` does not occur (Python raises `ValueError`, which the only caller,
`Table.html`, catches). -/
def py_list_index (x : String) : List String → Option Nat
  | [] => none
  | y :: ys => if y = x then some 0 else (py_list_index x ys).map (· + 1)

/-- Python list subscription `l[i]`: a negative index wraps once from the end;
`none` models an `IndexError`. -/
def py_get (l : List β) (i : Int) : Option β :=
  let j : Int := if i < 0 then i + l.length else i
  if 0 ≤ j ∧ j < l.length then l.get? j.toNat else none

/-- Python list item assignment `l[i] = v`: a negative index wraps once from the end;
`none` models an `IndexError`. -/
def py_set (l : List β) (i : Int) (v : β) : Option (List β) :=
  let j : Int := if i < 0 then i + l.length else i
  if 0 ≤ j ∧ j < l.length then some (l.set j.toNat v) else none

/-- Python truthiness of an optional integer (`None` and `0` are falsy). -/
def py_truthy_int : Option Int → Bool
  | none => false
  | some n => n ≠ 0

/-- Python truthiness of an optional boolean (`None` and `False` are falsy). -/
def py_truthy_bool : Option Bool → Bool
  | none => false
  | some b => b

/-- Python's stable ascending `list.sort(key=k)` for an integer key, realised by the
stable insertion sort. -/
def py_sort_by_key (k : α → Int) (l : List α) : List α :=
  l.insertionSort (fun a b => k a ≤ k b)

/-- Python's stable ascending `list.sort(key=k)` for a pair key, compared
lexicographically as Python compares tuples. -/
def py_sort_by_key2 (k : α → Int × Int) (l : List α) : List α :=
  l.insertionSort (fun a b => (k a).1 < (k b).1 ∨ ((k a).1 = (k b).1 ∧ (k a).2 ≤ (k b).2))

/-! ### Document metadata records (`Document._get_page_table_metadata` /
`Document._get_page_paragraph_metadata` output shape)

Only the fields that the stitching pipeline reads are carried: `page_num`, `page_height`,
the entity bounding box, and the comparison payload (`table_column_num` resp. `text`). -/

/-- Bounding box dictionary `{"x1": _, "y1": _, "x2": _, "y2": _}` as built by
`Document._format_bbox`. -/
structure BboxQ where
  x1 : ℚ
  y1 : ℚ
  x2 : ℚ
  y2 : ℚ
deriving DecidableEq, Repr

/-- Table metadata record, one per table on a page, as assembled by
`Document._get_page_table_metadata` (the fields not read by the stitching pipeline are
omitted). -/
structure TableMeta where
  page_num : Int
  page_height : ℚ
  table_bbox : BboxQ
  table_column_num : Int
deriving DecidableEq, Repr

/-- Paragraph metadata record, one per non-table-overlapping `text` layout block, as
assembled by `Document._get_paragraph_metadata` (fields not read downstream omitted). -/
structure ParaMeta where
  page_num : Int
  page_height : ℚ
  bbox : BboxQ
  text : String
deriving DecidableEq, Repr

/-! ### Document pairing pipeline (`Document._get_comparable_pairs` and friends)

The functions are generic in the record type `α`, with `pn : α → Int` projecting the
`"page_num"` field, exactly the only key the pairing code reads. -/

/-- Embedding of `Document._get_lowest_page_num`: the minimum of the `page_num` fields, or `none`
for the empty list (the Python code returns the non-integer `""` there). -/
def get_lowest_page_num (pn : α → Int) (l : List α) : Option Int :=
  (l.map pn).min?

/-- Embedding of `Document._get_page_table_data`: the first record whose `page_num` equals `p`,
or `none`. -/
def get_page_table_data (pn : α → Int) (l : List α) (p : Int) : Option α :=
  l.find? (fun m => pn m = p)

/-- Embedding of `Document._delete_lowest_num_page_data`: drop every record whose `page_num` equals
the given page number. -/
def delete_lowest_num_page_data (pn : α → Int) (l : List α) (p : Int) : List α :=
  l.filter (fun m => pn m ≠ p)

/-- Loop body iteration of `Document._get_comparable_pairs`. The Python `for` statement
iterates once per element of the *original* list (rebinding the loop-local name
`doc_page_metadata_list` does not affect the iteration count), so the loop is embedded
with an iteration budget `fuel` equal to the original length. The working list and the
current `lowest_page_num` (an `Option Int`, since the empty list yields the non-integer
`""` that fails the `isinstance` test and makes every later iteration `continue`) are
threaded. The first pair component is the unchecked `_get_page_table_data` result for
the lowest page number, hence an `Option`; the second is checked against `None` by the
code before a pair is emitted. -/
def get_comparable_pairs_loop (pn : α → Int) :
    Nat → List α → Option Int → List (Option α × α)
  | 0, _, _ => []
  | fuel + 1, l, none => get_comparable_pairs_loop pn fuel l none
  | fuel + 1, l, some p =>
    match get_page_table_data pn l (p + 1) with
    | some succ =>
      let l2 := delete_lowest_num_page_data pn l p
      (get_page_table_data pn l p, succ) ::
        get_comparable_pairs_loop pn fuel l2 (get_lowest_page_num pn l2)
    | none =>
      let l2 := delete_lowest_num_page_data pn l p
      get_comparable_pairs_loop pn fuel l2 (get_lowest_page_num pn l2)

/-- Embedding of `Document._get_comparable_pairs`: run the loop once per element of the input list. -/
def get_comparable_pairs (pn : α → Int) (l : List α) (lowest : Option Int) :
    List (Option α × α) :=
  get_comparable_pairs_loop pn l.length l lowest

/-- Embedding of `Document._comparable_pairs`: seed the loop with the lowest page number of the list. -/
def comparable_pairs (pn : α → Int) (l : List α) : List (Option α × α) :=
  get_comparable_pairs pn l (get_lowest_page_num pn l)

/-- Embedding of `Document._is_close_to_footer`: the entity's upper `y1` lies below 50% of the page
height. -/
def is_close_to_footer (page_height upper_y_coord : ℚ) : Bool :=
  upper_y_coord > 0.5 * page_height

/-- Embedding of `Document._is_close_to_header`: the entity's lower `y2` lies above 50% of the page
height. -/
def is_close_to_header (page_height lower_y_coord : ℚ) : Bool :=
  lower_y_coord < 0.5 * page_height

/-- Python `text.endswith(".")`: for the one-character suffix this is exactly the test
that the final character is a full stop, realised on the underlying character list. -/
def ends_with_dot (text : String) : Bool :=
  text.data.getLast? = some '.'

/-- Embedding of `Document._not_end_with_fullstop`: `False` for empty or one-character text, else
`True` exactly when the text does not end with `"."`. -/
def not_end_with_fullstop (text : String) : Bool :=
  if text = "" ∨ text.length = 1 then false
  else if ¬ ends_with_dot text then true
  else false

/-- Embedding of `Document._is_same_table`. The Python function returns `True`/`False` only inside the
geometric guard and falls through to an implicit `None` (falsy) otherwise, hence the
`Option Bool` result. A `none` first pair component cannot reach this function from the
pipeline (the pairing loop always finds the minimum it has just computed; Python would
raise on it), and is mapped to the falsy `none`. -/
def is_same_table (pairs : Option TableMeta × TableMeta) : Option Bool :=
  match pairs.1 with
  | none => none
  | some first_page =>
    let second_page := pairs.2
    if is_close_to_footer first_page.page_height first_page.table_bbox.y1 &&
        is_close_to_header second_page.page_height second_page.table_bbox.y2 then
      some (first_page.table_column_num = second_page.table_column_num)
    else
      none

/-- Embedding of `Document._is_same_paragraph`, with the same `Option Bool` reading as
`is_same_table`. -/
def is_same_paragraph (pairs : Option ParaMeta × ParaMeta) : Option Bool :=
  match pairs.1 with
  | none => none
  | some first_page =>
    let second_page := pairs.2
    if is_close_to_footer first_page.page_height first_page.bbox.y1 &&
        is_close_to_header second_page.page_height second_page.bbox.y2 then
      some (not_end_with_fullstop first_page.text)
    else
      none

/-- Embedding of `Document._get_same_entities`: filter the comparable pairs through the equivalence
test, keying the survivors `"0"`, `"1"`, … in order (the insertion-ordered Python dict
is an association list). -/
def get_same_entities (pn : α → Int) (is_same : Option α × α → Option Bool)
    (metadata_list : List α) : List (String × (Option α × α)) :=
  if metadata_list.isEmpty then []
  else
    let pairs_list := comparable_pairs pn metadata_list
    if pairs_list.isEmpty then []
    else
      (pairs_list.foldl
        (fun acc pr =>
          if py_truthy_bool (is_same pr) then
            (acc.1 ++ [(toString acc.2, pr)], acc.2 + 1)
          else acc)
        (([] : List (String × (Option α × α))), (0 : Nat))).1

/-- Result dictionary of `Document.detect_multi_page_entities`: the `"table"` and
`"text"` keys are present (`some`) exactly when the code inserts them. -/
structure MultiPageResult where
  table : Option (List (String × (Option TableMeta × TableMeta)))
  text : Option (List (String × (Option ParaMeta × ParaMeta)))
deriving DecidableEq, Repr

/-- Embedding of `Document.detect_multi_page_entities`, starting from the per-page metadata record
lists produced by `Document._get_page_metadata` (table records and paragraph records,
in page order). Each key is only inserted when its metadata list and its result map are
both non-empty. -/
def detect_multi_page_entities (doc_table_metadata_list : List TableMeta)
    (doc_paragraph_metadata_list : List ParaMeta) : MultiPageResult :=
  let table_result :=
    if doc_table_metadata_list = [] then none
    else
      let r := get_same_entities TableMeta.page_num is_same_table doc_table_metadata_list
      if r = [] then none else some r
  let text_result :=
    if doc_paragraph_metadata_list = [] then none
    else
      let r := get_same_entities ParaMeta.page_num is_same_paragraph
        doc_paragraph_metadata_list
      if r = [] then none else some r
  { table := table_result, text := text_result }

/-! ### Claim-side pairing procedures

Two definitions written from the specification's words, to be compared with the
embedding `comparable_pairs` of `Document._get_comparable_pairs` above. -/

/-- Written from the claim's words, literal reading: repeatedly take the (first) record
with the numerically lowest page number, emit the pair when a record with page number
one greater exists, and remove *the lower-numbered record* (that single record) from
further consideration; stop when the list is empty. Each round removes exactly one
record, so running the loop once per element of the original list is exactly "until the
remaining list is empty". -/
def pairing_spec_literal (pn : α → Int) : Nat → List α → List (Option α × α)
  | 0, _ => []
  | fuel + 1, l =>
    match get_lowest_page_num pn l with
    | none => []
    | some p =>
      match get_page_table_data pn l (p + 1) with
      | some succ =>
        (get_page_table_data pn l p, succ) ::
          pairing_spec_literal pn fuel (l.eraseP (fun m => pn m = p))
      | none => pairing_spec_literal pn fuel (l.eraseP (fun m => pn m = p))

/-- Top level of the literal claim procedure. -/
def pairing_literal (pn : α → Int) (l : List α) : List (Option α × α) :=
  pairing_spec_literal pn l.length l

/-- Written from the amended claim's words: repeatedly take the record with the
numerically lowest page number, emit the pair when a record with page number one
greater exists, remove *every* record carrying that lowest page number, and terminate
when the remaining list is empty. -/
def pairing_spec_amended (pn : α → Int) (l : List α) : List (Option α × α) :=
  match h : get_lowest_page_num pn l with
  | none => []
  | some p =>
    match get_page_table_data pn l (p + 1) with
    | some succ =>
      (get_page_table_data pn l p, succ) ::
        pairing_spec_amended pn (delete_lowest_num_page_data pn l p)
    | none => pairing_spec_amended pn (delete_lowest_num_page_data pn l p)
termination_by l.length
decreasing_by
  all_goals
    have hp : p ∈ l.map pn := List.min?_mem (fun x y => min_choice x y) h
    obtain ⟨m, hm, hpm⟩ := List.mem_map.mp hp
    simp only [delete_lowest_num_page_data]
    refine List.length_filter_lt_length_iff_exists.mpr ⟨m, hm, ?_⟩
    simp [hpm]

/-! ### The annotation store and the typed view layer

The store class (`datapoint/annotation.py`) is not part of the sources; its record shape
is modelled from the spec, with each field holding the resolved value the view layer
reads through `__getattr__`. -/

/-- Python exceptions that the view layer can raise and catch. -/
inductive PyErr
  | typeError
  | indexError
deriving DecidableEq, Repr

/-- Modelled from the spec: one annotation of the store (`ImageAnnotation`, absent from
the sources), carrying a unique id, a category name, the `active` soft-deletion flag, a
sub-category mapping and a `child` relationship list. The typed fields hold the resolved
sub-category values exactly as `__getattr__` returns them: `reading_order`,
`row_number`, `column_number`, `number_of_rows` and `number_of_columns` are numeric
category ids (`none` when the sub-category is absent), `characters` is the word's
container value, `html_template` is the `html` container value when that value is a
list (`none` otherwise), and `children` is the `child` relationship id list (empty when
the relationship is absent). -/
structure Ann where
  annotation_id : String
  category_name : String
  active : Bool
  reading_order : Option Int
  characters : String
  row_number : Option Int
  column_number : Option Int
  number_of_rows : Option Int
  number_of_columns : Option Int
  html_template : Option (List String)
  children : List String
deriving DecidableEq, Repr

/-- The `Page` view: page-level metadata, the full annotation list of the page (the views'
common `base_page`), and the two configured category parameters. -/
structure PageV where
  document_id : String
  image_id : String
  page_number : Int
  annotations : List Ann
  floating_text_block_categories : List String
  text_container : String
deriving DecidableEq, Repr

/-- Embedding of `Page.get_annotation`, here under the shorter name `get_anns`:
the active annotations, optionally filtered by category names and then by annotation
ids. -/
def get_anns (p : PageV) (category_names : Option (List String))
    (ann_ids : Option (List String)) : List Ann :=
  let anns := p.annotations.filter (fun a => a.active)
  let anns := match category_names with
    | none => anns
    | some cats => anns.filter (fun a => a.category_name ∈ cats)
  match ann_ids with
  | none => anns
  | some ids => anns.filter (fun a => a.annotation_id ∈ ids)

/-- Embedding of `Page.layouts`: all views of the floating text block categories. -/
def PageV.layouts (p : PageV) : List Ann :=
  get_anns p (some p.floating_text_block_categories) none

/-- Embedding of `Page.words`: all views of the text-container category. -/
def PageV.words (p : PageV) : List Ann :=
  get_anns p (some [p.text_container]) none

/-- Embedding of `Page.tables`: all views of the `table` category. -/
def PageV.tables (p : PageV) : List Ann :=
  get_anns p (some ["table"]) none

/-- Embedding of `Layout.words`: the `child`-related text-container views, or `[self]` when the
view's own category is the text container. -/
def layout_words (p : PageV) (a : Ann) : List Ann :=
  if a.category_name ≠ p.text_container then
    get_anns p (some [p.text_container]) (some a.children)
  else [a]

/-- Reading-order sort key; the callers only apply it to views that passed the non-`None`
filter, so the default value never matters. -/
def ro_key (a : Ann) : Int :=
  a.reading_order.getD 0

/-- Embedding of `Layout.get_ordered_words`: the words with a non-null reading order, stably sorted
ascending by it. -/
def layout_get_ordered_words (p : PageV) (a : Ann) : List Ann :=
  py_sort_by_key ro_key ((layout_words p a).filter (fun w => w.reading_order ≠ none))

/-- Embedding of `Layout.text`: the space-joined characters of the ordered words. -/
def layout_text (p : PageV) (a : Ann) : String :=
  String.intercalate " " ((layout_get_ordered_words p a).map (fun w => w.characters))

/-- The cell-family category names of the `Table.cells` filter. -/
def cell_categories : List String :=
  ["cell", "header", "body", "projected_row_header", "spanning", "row_header",
    "column_header"]

/-- Embedding of `Table.cells`: the `child`-related views of the cell-family categories. -/
def table_cells (p : PageV) (t : Ann) : List Ann :=
  get_anns p (some cell_categories) (some t.children)

/-- Embedding of `Table.rows`: the `child`-related views of category `row`. -/
def table_rows (p : PageV) (t : Ann) : List Ann :=
  get_anns p (some ["row"]) (some t.children)

/-- Embedding of `Table.columns`: the `child`-related views of category `column`. -/
def table_columns (p : PageV) (t : Ann) : List Ann :=
  get_anns p (some ["column"]) (some t.children)

/-- Substitution step of `Table.html` for one cell: look the cell id up in the working
list (`list.index`), pop that entry and insert the cell's text at the same position; a
missing id raises `ValueError`, which is recovered by a warning and a skip. -/
def html_step (p : PageV) (html_list : List String) (cell : Ann) : List String :=
  match py_list_index cell.annotation_id html_list with
  | some i => (html_list.eraseIdx i).insertIdx i (layout_text p cell)
  | none => html_list

/-- Embedding of `Table.html`: start from the stored `html` container value when it is a list (the
empty list otherwise), substitute each cell's text for its id, and join the result. -/
def table_html (p : PageV) (t : Ann) : String :=
  String.join ((table_cells p t).foldl (html_step p) (t.html_template.getD []))

/-- Embedding of `Table.html` threaded through the annotation store: the stored template value is
read, `copy`d into the local working list `html_list`, every pop/insert of the
substitution loop mutates that copy, and the table annotation — in particular its
stored `html` sub-category value — is returned exactly as the call leaves it. -/
def table_html_with_store (p : PageV) (t : Ann) : String × Ann :=
  let stored := t.html_template
  let html_list := stored.getD []
  let final := (table_cells p t).foldl (html_step p) html_list
  (String.join final, t)

/-- Embedding of `Table.csv`: build a `number_of_rows × number_of_columns` grid of empty strings and
append `cell.text + " "` at each cell's `(row_number - 1, column_number - 1)` tile. A
missing row/column count or cell number is the `TypeError` that `Table.text` catches;
a tile index outside the grid (after Python's negative-index wrap) is an uncaught
`IndexError`. -/
def csv_step (p : PageV) (table_list : List (List String)) (cell : Ann) :
    Except PyErr (List (List String)) := do
  let some rn := cell.row_number | throw PyErr.typeError
  let some cn := cell.column_number | throw PyErr.typeError
  let some row := py_get table_list (rn - 1) | throw PyErr.indexError
  let some v := py_get row (cn - 1) | throw PyErr.indexError
  let some row2 := py_set row (cn - 1) (v ++ layout_text p cell ++ " ")
    | throw PyErr.indexError
  let some table2 := py_set table_list (rn - 1) row2 | throw PyErr.indexError
  pure table2

/-- Body of `Table.csv` after the loop body `csv_step` has been split off. -/
def table_csv (p : PageV) (t : Ann) : Except PyErr (List (List String)) := do
  let cells := table_cells p t
  let some nrows := t.number_of_rows | throw PyErr.typeError
  let some ncols := t.number_of_columns | throw PyErr.typeError
  let init := List.replicate nrows.toNat (List.replicate ncols.toNat "")
  cells.foldlM (csv_step p) init

/-- Embedding of `Table.__str__`: every row is space-joined together with a trailing `"\n"` marker,
and the row strings are space-joined. -/
def csv_string (grid : List (List String)) : String :=
  String.intercalate " " (grid.map (fun row => String.intercalate " " (row ++ ["\n"])))

/-- Embedding of `Table.text`: prefer the CSV rendering; the `TypeError` of a missing count falls
back to the generic `Layout.text`; an `IndexError` escapes uncaught. -/
def table_text (p : PageV) (t : Ann) : Except PyErr String :=
  match table_csv p t with
  | Except.ok g => Except.ok (csv_string g)
  | Except.error PyErr.typeError => Except.ok (layout_text p t)
  | Except.error e => Except.error e

/-- Embedding of `Table.words`: the concatenation of the cells' word lists; a table without cells
falls back to the generic `Layout.words`. -/
def table_words (p : PageV) (t : Ann) : List Ann :=
  let cells := table_cells p t
  if cells.isEmpty then layout_words p t
  else (cells.map (layout_words p)).flatten

/-- Grid sort key `(row_number, column_number)` of a cell; only applied when both
numbers are present. -/
def cell_grid_key (c : Ann) : Int × Int :=
  (c.row_number.getD 0, c.column_number.getD 0)

/-- Embedding of `Table.get_ordered_words`: sort the cells by `(row_number, column_number)` and
concatenate their ordered words. The Python `try` block falls back to
`Layout.get_ordered_words` when the sort raises a `TypeError` (comparing a `None` row
or column number with an integer); this is modelled by requiring every cell to carry
both numbers. A table without cells sorts the empty list and returns `[]` without any
fallback. -/
def table_get_ordered_words (p : PageV) (t : Ann) : List Ann :=
  let cells := table_cells p t
  if cells.all (fun c => c.row_number.isSome && c.column_number.isSome) then
    ((py_sort_by_key2 cell_grid_key cells).map (layout_get_ordered_words p)).flatten
  else layout_get_ordered_words p t

/-! ### Page chunking -/

/-- The 7-tuple shape of one chunk: document id, image id, page number, annotation id,
reading order, category name, text. -/
abbrev Chunk := String × String × Int × String × Option Int × String × String

/-- Embedding of `Page._order("layouts")`: the layouts carrying a reading order, stably sorted
ascending by it. -/
def ordered_layouts (p : PageV) : List Ann :=
  py_sort_by_key ro_key (p.layouts.filter (fun a => a.reading_order ≠ none))

/-- Block list built by `Page.chunks`: the ordered layouts followed by the tables whose
reading order is truthy (`if table.reading_order:` — `None` and `0` are both falsy). -/
def chunk_blocks (p : PageV) : List Ann :=
  ordered_layouts p ++ p.tables.filter (fun t => py_truthy_int t.reading_order)

/-- Text of a view as dispatched by its class (`Table.text` for the table categories
mapped to the `Table` view class, `Layout.text`, which never raises in the model,
otherwise). -/
def view_text (p : PageV) (a : Ann) : Except PyErr String :=
  if a.category_name = "table" ∨ a.category_name = "table_rotated" then table_text p a
  else Except.ok (layout_text p a)

/-- Appending loop of `Page.chunks`: one 7-tuple per block, each block's text computed
in turn; an exception raised by a table's text aborts the whole property read. -/
def chunks_loop (p : PageV) : List Ann → Except PyErr (List Chunk)
  | [] => Except.ok []
  | b :: rest => do
    let s ← view_text p b
    let tail ← chunks_loop p rest
    pure ((p.document_id, p.image_id, p.page_number, b.annotation_id, b.reading_order,
      b.category_name, s) :: tail)

/-- Embedding of `Page.chunks`: the 7-tuples of the chunk blocks. -/
def page_chunks (p : PageV) : Except PyErr (List Chunk) :=
  chunks_loop p (chunk_blocks p)

/-! ### The generic attribute-resolution protocol (`ImageAnnotationBaseView.__getattr__`) -/

/-- Value shapes a resolved attribute can take (string, integer, list of strings). -/
inductive AttrValue
  | str (s : String)
  | int (n : Int)
  | strlist (l : List String)
deriving DecidableEq, Repr

/-- Modelled from the spec: a sub-category value of the store (absent from the sources) —
either a plain category reference (`CategoryAnnotation`) or a container holding a typed
value (`ContainerAnnotation`); both carry a category name and a numeric category id. -/
inductive SubCat
  | cat (category_name : String) (category_id : Int)
  | container (category_name : String) (category_id : Int) (value : AttrValue)
deriving DecidableEq, Repr

/-- Category name of a sub-category value. -/
def SubCat.name : SubCat → String
  | cat n _ => n
  | container n _ _ => n

/-- Raw annotation as `__getattr__` sees it: the sub-category dictionary, the optional
summary sub-category dictionary of the nested image, and the extra attribute names the
concrete view class registers on top of the base set. -/
structure RawAnn where
  extra_names : List String
  sub_categories : List (String × SubCat)
  summary : Option (List (String × SubCat))
deriving DecidableEq, Repr

/-- Dictionary lookup: the first binding of the key wins (Python dict keys are unique). -/
def dict_get (k : String) : List (String × β) → Option β
  | [] => none
  | (k2, v) :: rest => if k2 = k then some v else dict_get k rest

/-- Embedding of `get_attribute_names()`: the class extras, the two structural property names, the
sub-category keys, and the summary sub-category keys when a summary is present. -/
def attribute_names (a : RawAnn) : List String :=
  a.extra_names ++ ["bbox", "np_image"] ++ a.sub_categories.map Prod.fst ++
    (match a.summary with
     | some s => s.map Prod.fst
     | none => [])

/-- Resolution of one sub-category hit inside `__getattr__`: the category name when it
differs from the requested key (category aliasing), otherwise the container value for a
container, or the numeric category id for a plain category reference. -/
def resolve_sub_cat (item : String) (sc : SubCat) : Option AttrValue :=
  if item ≠ sc.name then some (AttrValue.str sc.name)
  else match sc with
    | SubCat.container _ _ v => some v
    | SubCat.cat _ n => some (AttrValue.int n)

/-- Embedding of `ImageAnnotationBaseView.__getattr__`: an unregistered name is an `AnnotationError`
(`Except.error`); a registered name resolves against the own sub-categories, then
against the summary sub-categories, and finally to the explicit no-value result
(`Except.ok none`). -/
def getattr_view (a : RawAnn) (item : String) : Except String (Option AttrValue) :=
  if item ∉ attribute_names a then
    Except.error ("Attribute " ++ item ++ " is not supported")
  else match dict_get item a.sub_categories with
    | some sc => Except.ok (resolve_sub_cat item sc)
    | none =>
      match a.summary with
      | some s =>
        match dict_get item s with
        | some sc => Except.ok (resolve_sub_cat item sc)
        | none => Except.ok none
      | none => Except.ok none

/-! ### Claim-side grid description for `Table.csv` -/

/-- Content of one claim-side grid tile: the appended `text + " "` of exactly the cells
anchored at `(row_number, column_number) = (i + 1, j + 1)`, in cell order. -/
def csv_tile (p : PageV) (cells : List Ann) (i j : Nat) : String :=
  String.join ((cells.filter (fun c =>
    c.row_number = some ((i : Int) + 1) ∧
      c.column_number = some ((j : Int) + 1))).map
    (fun c => layout_text p c ++ " "))

/-- Written from the claim's words: the `nrows × ncols` grid of the anchor tiles —
tiles covered by a spanning cell beyond its anchor are not populated and tiles with no
anchoring cell stay `""`. -/
def csv_grid_spec (p : PageV) (cells : List Ann) (nrows ncols : Nat) :
    List (List String) :=
  (List.range nrows).map (fun i => (List.range ncols).map (csv_tile p cells i))

/-! ### Concrete fixtures used by counterexamples and witnesses -/

/-- The default floating text block category configuration. -/
def fx_floating : List String :=
  ["text", "title", "figure", "list", "line"]

/-- A table annotation carrying reading order `0`. -/
def fx_table_ro0 : Ann :=
  ⟨"t0", "table", true, some 0, "", none, none, some 1, some 1, none, []⟩

/-- A page whose only annotation is the reading-order-`0` table. -/
def fx_page_ro0 : PageV :=
  ⟨"doc", "img", 0, [fx_table_ro0], fx_floating, "word"⟩

/-- A word `"hello"` with reading order 1. -/
def fx_word_hello : Ann :=
  ⟨"w1", "word", true, some 1, "hello", none, none, none, none, none, []⟩

/-- A `text` layout block with reading order 2 and the word `"w1"` as child. -/
def fx_layout_text : Ann :=
  ⟨"l1", "text", true, some 2, "", none, none, none, none, none, ["w1"]⟩

/-- A 1×1 table with reading order 3 and no cells. -/
def fx_table_simple : Ann :=
  ⟨"t1", "table", true, some 3, "", none, none, some 1, some 1, none, []⟩

/-- A page with one ordered layout block, one ordered table and one word. -/
def fx_page_chunks : PageV :=
  ⟨"doc", "img", 0, [fx_layout_text, fx_table_simple, fx_word_hello], fx_floating, "word"⟩

/-- A word `"x"` with reading order 1, for the grid fixture. -/
def fx_word_x : Ann :=
  ⟨"w4", "word", true, some 1, "x", none, none, none, none, none, []⟩

/-- A cell anchored at grid tile `(1, 1)` containing the word `"w4"`. -/
def fx_cell_11 : Ann :=
  ⟨"c1", "cell", true, none, "", some 1, some 1, none, none, none, ["w4"]⟩

/-- A spanning cell anchored at grid tile `(2, 2)` with no words. -/
def fx_cell_22 : Ann :=
  ⟨"c2", "spanning", true, none, "", some 2, some 2, none, none, none, []⟩

/-- A 2×2 table owning the two cells. -/
def fx_table_grid : Ann :=
  ⟨"t4", "table", true, none, "", none, none, some 2, some 2, none, ["c1", "c2"]⟩

/-- The page of the 2×2 grid table. -/
def fx_page_grid : PageV :=
  ⟨"doc", "img", 0, [fx_table_grid, fx_cell_11, fx_cell_22, fx_word_x], fx_floating, "word"⟩

/-- A word `"hi"` with reading order 1, child of the cell-less table. -/
def fx_word_hi : Ann :=
  ⟨"w5", "word", true, some 1, "hi", none, none, none, none, none, []⟩

/-- A table without any cell children but with a direct word child. -/
def fx_table_nocells : Ann :=
  ⟨"t5", "table", true, none, "", none, none, none, none, none, ["w5"]⟩

/-- The page of the cell-less table. -/
def fx_page_nocells : PageV :=
  ⟨"doc", "img", 0, [fx_table_nocells, fx_word_hi], fx_floating, "word"⟩

/-- A word `"y"` with reading order 1, for the html fixture. -/
def fx_word_y : Ann :=
  ⟨"w6", "word", true, some 1, "y", none, none, none, none, none, []⟩

/-- A cell whose id occurs in the stored html template. -/
def fx_cell_html : Ann :=
  ⟨"c6", "cell", true, none, "", some 1, some 1, none, none, none, ["w6"]⟩

/-- A cell whose id is absent from the stored html template. -/
def fx_cell_orphan : Ann :=
  ⟨"c7", "cell", true, none, "", some 1, some 2, none, none, none, []⟩

/-- A table with a stored html template naming only cell `"c6"`. -/
def fx_table_html : Ann :=
  ⟨"t6", "table", true, none, "", none, none, none, none,
    some ["<table>", "c6", "</table>"], ["c6", "c7"]⟩

/-- The page of the html-template table. -/
def fx_page_html : PageV :=
  ⟨"doc", "img", 0, [fx_table_html, fx_cell_html, fx_cell_orphan, fx_word_y],
    fx_floating, "word"⟩

/-- A raw annotation for the attribute-resolution fixture: two plain sub-categories
(one aliased), one container sub-category, a summary container, and two registered
extra names. -/
def fx_raw : RawAnn :=
  ⟨["words", "text"],
    [("reading_order", SubCat.cat "reading_order" 2),
      ("token_tag", SubCat.cat "B-header" 5),
      ("characters", SubCat.container "characters" 1 (AttrValue.str "foo"))],
    some [("document_type", SubCat.container "document_type" 9 (AttrValue.str "invoice"))]⟩

/-- A word `"a"` with reading order 1. -/
def fx_word_ro1a : Ann :=
  ⟨"wa", "word", true, some 1, "a", none, none, none, none, none, []⟩

/-- A second word `"b"` also with reading order 1 (a tie). -/
def fx_word_ro1b : Ann :=
  ⟨"wb", "word", true, some 1, "b", none, none, none, none, none, []⟩

/-- A layout block whose two words share reading order 1. -/
def fx_layout_ties : Ann :=
  ⟨"l8", "text", true, some 1, "", none, none, none, none, none, ["wa", "wb"]⟩

/-- The page of the tied-reading-order layout. -/
def fx_page_ties : PageV :=
  ⟨"doc", "img", 0, [fx_layout_ties, fx_word_ro1a, fx_word_ro1b], fx_floating, "word"⟩

/-- A word `"c"` with reading order 2. -/
def fx_word_ro2 : Ann :=
  ⟨"wc", "word", true, some 2, "c", none, none, none, none, none, []⟩

/-- A word with no reading order. -/
def fx_word_nro : Ann :=
  ⟨"wn", "word", true, none, "n", none, none, none, none, none, []⟩

/-- A layout block with words of reading order 2, none, and 1. -/
def fx_layout_mix : Ann :=
  ⟨"l9", "text", true, some 1, "", none, none, none, none, none, ["wc", "wn", "wa"]⟩

/-- The page of the mixed-reading-order layout. -/
def fx_page_mix : PageV :=
  ⟨"doc", "img", 0, [fx_layout_mix, fx_word_ro2, fx_word_nro, fx_word_ro1a],
    fx_floating, "word"⟩

/-- A soft-deleted (`active = false`) word annotation. -/
def fx_word_dead : Ann :=
  ⟨"wd", "word", false, some 1, "dead", none, none, none, none, none, []⟩

/-- A page holding only the soft-deleted word. -/
def fx_page_dead : PageV :=
  ⟨"doc", "img", 0, [fx_word_dead], fx_floating, "word"⟩

/-! ### Helper lemmas about the pairing pipeline -/

/-- Loop iterations with the non-integer `lowest_page_num` only `continue`. -/
theorem aux_loop_none (pn : α → Int) (fuel : Nat) (l : List α) :
    get_comparable_pairs_loop pn fuel l none = [] := by
  induction fuel generalizing l with
  | zero => rfl
  | succ n ih => exact ih l

/-- A non-empty list has an attained lowest page number. -/
theorem aux_lowest_cons (pn : α → Int) (a : α) (l : List α) :
    get_lowest_page_num pn (a :: l) = some (List.foldl min (pn a) (l.map pn)) := rfl

/-- Deleting the (attained) lowest page number strictly shrinks the list. -/
theorem aux_delete_shrinks (pn : α → Int) (l : List α) (p : Int)
    (h : get_lowest_page_num pn l = some p) :
    (delete_lowest_num_page_data pn l p).length < l.length := by
  have hm : p ∈ l.map pn := List.min?_mem (fun x y => min_choice x y) h
  obtain ⟨m, hm2, hm3⟩ := List.mem_map.mp hm
  refine List.length_filter_lt_length_iff_exists.mpr ⟨m, hm2, ?_⟩
  simp [hm3]

/-- Core equivalence: the fueled, `lowest`-threaded loop of
`Document._get_comparable_pairs` computes the clean remove-all recursion whenever the
fuel covers the list length. -/
theorem aux_loop_eq_spec (pn : α → Int) (n : Nat) :
    ∀ l : List α, ∀ fuel, l.length ≤ n → l.length ≤ fuel →
      get_comparable_pairs_loop pn fuel l (get_lowest_page_num pn l) =
        pairing_spec_amended pn l := by
  induction n with
  | zero =>
    intro l fuel h1 _
    have hl : l = [] := List.length_eq_zero.mp (Nat.le_zero.mp h1)
    subst hl
    rw [pairing_spec_amended.eq_def]
    simp [get_lowest_page_num, aux_loop_none]
  | succ n ih =>
    intro l fuel h1 h2
    cases l with
    | nil =>
      rw [pairing_spec_amended.eq_def]
      simp [get_lowest_page_num, aux_loop_none]
    | cons a l' =>
      obtain ⟨f, rfl⟩ : ∃ f, fuel = f + 1 := by
        cases fuel with
        | zero => simp at h2
        | succ f => exact ⟨f, rfl⟩
      have hlow := aux_lowest_cons pn a l'
      set p := List.foldl min (pn a) (l'.map pn) with hp
      have hdel : (delete_lowest_num_page_data pn (a :: l') p).length < (a :: l').length :=
        aux_delete_shrinks pn (a :: l') p hlow
      have hlen2 : (delete_lowest_num_page_data pn (a :: l') p).length ≤ n := by
        simp only [List.length_cons] at h1 hdel ⊢
        omega
      have hfuel2 : (delete_lowest_num_page_data pn (a :: l') p).length ≤ f := by
        simp only [List.length_cons] at h2 hdel ⊢
        omega
      rw [pairing_spec_amended.eq_def]
      split
      · next h4 => rw [hlow] at h4; cases h4
      · next p2 h4 =>
        rw [hlow] at h4
        injection h4 with h4
        subst h4
        rw [hlow]
        simp only [get_comparable_pairs_loop]
        cases hsucc : get_page_table_data pn (a :: l') (p + 1) with
        | none => exact ih _ f hlen2 hfuel2
        | some succ => exact congrArg (List.cons _) (ih _ f hlen2 hfuel2)

/-- Equality: `Document._comparable_pairs` equals the remove-all pairing recursion. -/
theorem aux_comparable_pairs_eq (pn : α → Int) (l : List α) :
    comparable_pairs pn l = pairing_spec_amended pn l :=
  aux_loop_eq_spec pn l.length l l.length le_rfl le_rfl

/-- A list without adjacent page numbers produces no pairs. -/
theorem aux_spec_no_adjacent (pn : α → Int) (n : Nat) :
    ∀ l : List α, l.length ≤ n → (∀ x ∈ l, ∀ y ∈ l, pn y ≠ pn x + 1) →
      pairing_spec_amended pn l = [] := by
  induction n with
  | zero =>
    intro l h1 _
    have hl : l = [] := List.length_eq_zero.mp (Nat.le_zero.mp h1)
    subst hl
    rw [pairing_spec_amended.eq_def]
    simp [get_lowest_page_num]
  | succ n ih =>
    intro l h1 hadj
    rw [pairing_spec_amended.eq_def]
    split
    · rfl
    · next p h2 =>
      have hm : p ∈ l.map pn := List.min?_mem (fun x y => min_choice x y) h2
      obtain ⟨x, hx, hpx⟩ := List.mem_map.mp hm
      have hfind : get_page_table_data pn l (p + 1) = none := by
        refine List.find?_eq_none.mpr ?_
        intro y hy
        simp only [decide_eq_true_eq]
        rw [← hpx]
        exact hadj x hx y hy
      rw [hfind]
      have hlt := aux_delete_shrinks pn l p h2
      refine ih _ (by omega) ?_
      intro x2 hx2 y2 hy2
      exact hadj x2 (List.mem_of_mem_filter hx2) y2 (List.mem_of_mem_filter hy2)

/-- A two-record list on adjacent pages produces exactly the adjacent pair. -/
theorem aux_pairs_two_adjacent (pn : α → Int) (a b : α) (h : pn b = pn a + 1) :
    comparable_pairs pn [a, b] = [(some a, b)] := by
  have hmin : min (pn a) (pn b) = pn a := min_eq_left (by omega)
  have hne : ¬ (pn a = pn a + 1) := by omega
  have hne2 : ¬ (pn b = pn b + 1) := by omega
  have hne3 : pn b ≠ pn a := by omega
  simp [comparable_pairs, get_comparable_pairs, get_comparable_pairs_loop,
    get_lowest_page_num, get_page_table_data, delete_lowest_num_page_data,
    List.min?, List.find?, hmin, h, hne, hne2, hne3]

/-! ### Claim C2 -/

/-- Claim C2, counterexample. On records `("a", 1), ("b", 1), ("c", 2)` (page numbers as
second components) the claim's procedure — which removes only *the* taken lower-numbered
record after emitting a pair — would emit two pairs, while
`Document._get_comparable_pairs` deletes *every* record with the lowest page number and
emits only one. -/
theorem C2_counterexample :
    comparable_pairs (fun m : String × Int => m.2) [("a", 1), ("b", 1), ("c", 2)] =
      [(some ("a", 1), ("c", 2))] ∧
    pairing_literal (fun m : String × Int => m.2) [("a", 1), ("b", 1), ("c", 2)] =
      [(some ("a", 1), ("c", 2)), (some ("b", 1), ("c", 2))] ∧
    comparable_pairs (fun m : String × Int => m.2) [("a", 1), ("b", 1), ("c", 2)] ≠
      pairing_literal (fun m : String × Int => m.2) [("a", 1), ("b", 1), ("c", 2)] := by
  refine ⟨by decide, by decide, by decide⟩

/-- Claim C2, amended. The pairing step of `Document._get_comparable_pairs` repeatedly
takes the record with the numerically lowest page number, emits the pair of the first
record at that page and the first record at the page exactly one greater when the
latter exists (and no pair otherwise), removes *every* record carrying that lowest page
number from further consideration, and terminates when the remaining list is empty:
the loop computes exactly the remove-all recursion `pairing_spec_amended`. -/
theorem C2_pairing_amended (pn : α → Int) (l : List α) :
    comparable_pairs pn l = pairing_spec_amended pn l :=
  aux_comparable_pairs_eq pn l

/-! ### Claim C1 -/

/-- Claim C1. `Document.detect_multi_page_entities`, applied to the metadata records the
document produces: (1) two table records on adjacent pages, the first with `y1` beyond
half its page height, the second with `y2` under half its page height, reporting equal
column counts, appear as the pair under `"table"` then `"0"`; (2) two paragraph records
under the same geometry whose first text does not end with `.` and is neither empty nor
of length one appear under `"text"` then `"0"`; (3) table records on non-adjacent pages
produce no pairs and the `"table"` key is omitted; (4) an adjacent paragraph pair whose
first text ends with `.` produces no pair even when the geometry matches, and the
`"text"` key is omitted; (5) empty metadata omits both keys. -/
theorem C1_detect_multi_page_entities :
    (∀ r1 r2 : TableMeta, r2.page_num = r1.page_num + 1 →
      0.5 * r1.page_height < r1.table_bbox.y1 →
      r2.table_bbox.y2 < 0.5 * r2.page_height →
      r1.table_column_num = r2.table_column_num →
      detect_multi_page_entities [r1, r2] [] =
        { table := some [("0", (some r1, r2))], text := none }) ∧
    (∀ q1 q2 : ParaMeta, q2.page_num = q1.page_num + 1 →
      0.5 * q1.page_height < q1.bbox.y1 →
      q2.bbox.y2 < 0.5 * q2.page_height →
      q1.text ≠ "" → q1.text.length ≠ 1 → ends_with_dot q1.text = false →
      detect_multi_page_entities [] [q1, q2] =
        { table := none, text := some [("0", (some q1, q2))] }) ∧
    (∀ r1 r2 : TableMeta, r2.page_num ≠ r1.page_num + 1 → r1.page_num ≠ r2.page_num + 1 →
      detect_multi_page_entities [r1, r2] [] = { table := none, text := none }) ∧
    (∀ q1 q2 : ParaMeta, q2.page_num = q1.page_num + 1 → ends_with_dot q1.text = true →
      detect_multi_page_entities [] [q1, q2] = { table := none, text := none }) ∧
    detect_multi_page_entities [] [] = { table := none, text := none } := by
  have h0 : toString (0 : Nat) = "0" := rfl
  refine ⟨?_, ?_, ?_, ?_, rfl⟩
  · intro r1 r2 h1 h2 h3 h4
    have hpairs := aux_pairs_two_adjacent TableMeta.page_num r1 r2 h1
    have hfoot : is_close_to_footer r1.page_height r1.table_bbox.y1 = true := by
      simp only [is_close_to_footer, gt_iff_lt, decide_eq_true_eq]
      exact h2
    have hhead : is_close_to_header r2.page_height r2.table_bbox.y2 = true := by
      simp only [is_close_to_header, decide_eq_true_eq]
      exact h3
    have hsame : is_same_table (some r1, r2) = some true := by
      simp [is_same_table, hfoot, hhead, h4]
    simp [detect_multi_page_entities, get_same_entities, hpairs, hsame, py_truthy_bool, h0]
  · intro q1 q2 h1 h2 h3 hne hlen hdot
    have hpairs := aux_pairs_two_adjacent ParaMeta.page_num q1 q2 h1
    have hfoot : is_close_to_footer q1.page_height q1.bbox.y1 = true := by
      simp only [is_close_to_footer, gt_iff_lt, decide_eq_true_eq]
      exact h2
    have hhead : is_close_to_header q2.page_height q2.bbox.y2 = true := by
      simp only [is_close_to_header, decide_eq_true_eq]
      exact h3
    have hnotend : not_end_with_fullstop q1.text = true := by
      simp [not_end_with_fullstop, hne, hlen, hdot]
    have hsame : is_same_paragraph (some q1, q2) = some true := by
      simp [is_same_paragraph, hfoot, hhead, hnotend]
    simp [detect_multi_page_entities, get_same_entities, hpairs, hsame, py_truthy_bool, h0]
  · intro r1 r2 h1 h2
    have hpairs : comparable_pairs TableMeta.page_num [r1, r2] = [] := by
      rw [aux_comparable_pairs_eq]
      refine aux_spec_no_adjacent TableMeta.page_num 2 [r1, r2] (by simp) ?_
      intro x hx y hy
      simp only [List.mem_cons, List.not_mem_nil, or_false] at hx hy
      rcases hx with rfl | rfl <;> rcases hy with rfl | rfl <;> omega
    simp [detect_multi_page_entities, get_same_entities, hpairs]
  · intro q1 q2 h1 hdot
    have hpairs := aux_pairs_two_adjacent ParaMeta.page_num q1 q2 h1
    have hnotend : not_end_with_fullstop q1.text = false := by
      simp [not_end_with_fullstop, hdot]
    have hsame : py_truthy_bool (is_same_paragraph (some q1, q2)) = false := by
      simp only [is_same_paragraph]
      by_cases hgeo : (is_close_to_footer q1.page_height q1.bbox.y1 &&
          is_close_to_header q2.page_height q2.bbox.y2) = true
      · simp [hgeo, hnotend, py_truthy_bool]
      · simp only [Bool.not_eq_true] at hgeo
        simp [hgeo, py_truthy_bool]
    simp [detect_multi_page_entities, get_same_entities, hpairs, hsame]

/-- Claim C1, witness. Concrete records exercising all four quantified parts of
`C1_detect_multi_page_entities`. -/
theorem C1_witness :
    detect_multi_page_entities
        [⟨1, 100, ⟨0, 60, 10, 90⟩, 3⟩, ⟨2, 100, ⟨0, 5, 10, 20⟩, 3⟩] [] =
      { table := some [("0", (some ⟨1, 100, ⟨0, 60, 10, 90⟩, 3⟩,
          ⟨2, 100, ⟨0, 5, 10, 20⟩, 3⟩))], text := none } ∧
    detect_multi_page_entities []
        [⟨1, 100, ⟨0, 60, 10, 90⟩, "runs on"⟩, ⟨2, 100, ⟨0, 5, 10, 20⟩, "tail"⟩] =
      { table := none, text := some [("0", (some ⟨1, 100, ⟨0, 60, 10, 90⟩, "runs on"⟩,
          ⟨2, 100, ⟨0, 5, 10, 20⟩, "tail"⟩))] } ∧
    detect_multi_page_entities
        [⟨1, 100, ⟨0, 60, 10, 90⟩, 3⟩, ⟨3, 100, ⟨0, 5, 10, 20⟩, 3⟩] [] =
      { table := none, text := none } ∧
    detect_multi_page_entities []
        [⟨1, 100, ⟨0, 60, 10, 90⟩, "stops."⟩, ⟨2, 100, ⟨0, 5, 10, 20⟩, "tail"⟩] =
      { table := none, text := none } := by
  refine ⟨C1_detect_multi_page_entities.1 _ _ (by decide) (by norm_num) (by norm_num)
      (by decide),
    C1_detect_multi_page_entities.2.1 _ _ (by decide) (by norm_num) (by norm_num)
      (by decide) (by decide) (by decide),
    C1_detect_multi_page_entities.2.2.1 _ _ (by decide) (by decide),
    C1_detect_multi_page_entities.2.2.2.1 _ _ (by decide) (by decide)⟩

/-! ### Claim C3 -/

/-- A successful chunk-loop run pairs blocks and 7-tuples one for one. -/
theorem aux_chunks_loop_forall (p : PageV) :
    ∀ (bs : List Ann) (cs : List Chunk), chunks_loop p bs = Except.ok cs →
      List.Forall₂ (fun b t => ∃ s, view_text p b = Except.ok s ∧
        t = (p.document_id, p.image_id, p.page_number, b.annotation_id, b.reading_order,
          b.category_name, s)) bs cs := by
  intro bs
  induction bs with
  | nil =>
    intro cs h
    simp only [chunks_loop] at h
    injection h with h
    subst h
    exact List.Forall₂.nil
  | cons b rest ih =>
    intro cs h
    simp only [chunks_loop] at h
    cases hv : view_text p b with
    | error e =>
      rw [hv] at h
      simp [Bind.bind, Except.bind, Functor.map, Except.map] at h
    | ok s =>
      rw [hv] at h
      cases hr : chunks_loop p rest with
      | error e =>
        rw [hr] at h
        simp [Bind.bind, Except.bind, Functor.map, Except.map] at h
      | ok tail =>
        rw [hr] at h
        simp only [Bind.bind, Except.bind, Functor.map, Except.map] at h
        injection h with h
        subst h
        exact List.Forall₂.cons ⟨s, hv, rfl⟩ (ih tail hr)

/-- The ordered layout prefix is sorted by the reading-order key. -/
theorem aux_sorted_ordered_layouts (p : PageV) :
    List.Sorted (fun a b => ro_key a ≤ ro_key b) (ordered_layouts p) := by
  haveI : IsTotal Ann (fun a b => ro_key a ≤ ro_key b) := ⟨fun a b => le_total _ _⟩
  haveI : IsTrans Ann (fun a b => ro_key a ≤ ro_key b) := ⟨fun a b c => le_trans⟩
  exact List.sorted_insertionSort _ _

/-- Claim C3, counterexample. A page whose only annotation is a table with reading order
`0`: the reading order is non-null and the table appears in `Page.tables`, yet
`Page.chunks` is empty, because the code tests Python truthiness
(`if table.reading_order:`) rather than non-nullness. -/
theorem C3_counterexample :
    fx_page_ro0.tables = [fx_table_ro0] ∧
    fx_table_ro0.reading_order = some 0 ∧
    (some (0 : Int) ≠ (none : Option Int)) ∧
    ordered_layouts fx_page_ro0 = [] ∧
    page_chunks fx_page_ro0 = Except.ok [] := by
  exact ⟨rfl, rfl, by decide, rfl, rfl⟩

/-- Claim C3, amended. Whenever `Page.chunks` returns a value, its blocks are exactly the
reading-order-sorted floating layout blocks followed by exactly those tables whose
reading-order value is *truthy* (non-null and non-zero); each block is rendered as the
7-tuple (document id, image id, page number, annotation id, reading order, category
name, text), and the non-table prefix is non-decreasing in the reading-order key. -/
theorem C3_chunks_amended (p : PageV) (cs : List Chunk)
    (h : page_chunks p = Except.ok cs) :
    chunk_blocks p =
      ordered_layouts p ++ p.tables.filter (fun t => py_truthy_int t.reading_order) ∧
    List.Forall₂ (fun b t => ∃ s, view_text p b = Except.ok s ∧
      t = (p.document_id, p.image_id, p.page_number, b.annotation_id, b.reading_order,
        b.category_name, s)) (chunk_blocks p) cs ∧
    List.Sorted (fun a b => ro_key a ≤ ro_key b) (ordered_layouts p) :=
  ⟨rfl, aux_chunks_loop_forall p _ cs h, aux_sorted_ordered_layouts p⟩

/-- Claim C3, witness. The amended chunk description evaluated on a concrete page with
one ordered layout block, one ordered table and one word. -/
theorem C3_witness :
    page_chunks fx_page_chunks = Except.ok
      [("doc", "img", 0, "l1", some 2, "text", "hello"),
        ("doc", "img", 0, "t1", some 3, "table", " \n")] ∧
    (chunk_blocks fx_page_chunks =
      ordered_layouts fx_page_chunks ++
        fx_page_chunks.tables.filter (fun t => py_truthy_int t.reading_order) ∧
    List.Forall₂ (fun b t => ∃ s, view_text fx_page_chunks b = Except.ok s ∧
      t = (fx_page_chunks.document_id, fx_page_chunks.image_id,
        fx_page_chunks.page_number, b.annotation_id, b.reading_order,
        b.category_name, s)) (chunk_blocks fx_page_chunks)
      [("doc", "img", 0, "l1", some 2, "text", "hello"),
        ("doc", "img", 0, "t1", some 3, "table", " \n")] ∧
    List.Sorted (fun a b => ro_key a ≤ ro_key b) (ordered_layouts fx_page_chunks)) :=
  ⟨rfl, C3_chunks_amended fx_page_chunks _ rfl⟩

/-! ### Claim C4 -/

/-- Joining splits over list append. -/
theorem aux_join_append (l1 l2 : List String) :
    String.join (l1 ++ l2) = String.join l1 ++ String.join l2 := by
  apply String.ext
  simp [String.join_eq]

/-- Joining a singleton is its element. -/
theorem aux_join_singleton (s : String) : String.join [s] = s := by
  apply String.ext
  simp [String.join_eq]

/-- Evaluation: `py_get` at a valid non-negative index is a plain lookup. -/
theorem aux_py_get (l : List β) (i : Int) (h0 : 0 ≤ i) (h1 : i.toNat < l.length) :
    py_get l i = l.get? i.toNat := by
  have hni : ¬ i < 0 := by omega
  have hlt : i < (l.length : Int) := by omega
  simp [py_get, hni, h0, hlt]

/-- Evaluation: `py_set` at a valid non-negative index is a plain update. -/
theorem aux_py_set (l : List β) (i : Int) (v : β) (h0 : 0 ≤ i) (h1 : i.toNat < l.length) :
    py_set l i v = some (l.set i.toNat v) := by
  have hni : ¬ i < 0 := by omega
  have hlt : i < (l.length : Int) := by omega
  simp [py_set, hni, h0, hlt]

/-- Lookup in a tabulated list. -/
theorem aux_get_range_map (n : Nat) (f : Nat → β) (i : Nat) (hi : i < n) :
    ((List.range n).map f).get? i = some (f i) := by
  simp [List.get?_eq_getElem?, List.getElem?_map, List.getElem?_range, hi]

/-- Updating a tabulated list tabulates the pointwise update. -/
theorem aux_set_range_map (n : Nat) (f : Nat → β) (k : Nat) (v : β) :
    ((List.range n).map f).set k v =
      (List.range n).map (fun i => if i = k then v else f i) := by
  apply List.ext_getElem (by simp)
  intro i h1 h2
  rw [List.getElem_set]
  by_cases hik : k = i
  · subst hik
    simp
  · rw [if_neg hik]
    simp only [List.getElem_map, List.getElem_range]
    rw [if_neg (fun h => hik h.symm)]

/-- Length of the claim-side grid. -/
theorem aux_csv_grid_length (p : PageV) (cells : List Ann) (R C : Nat) :
    (csv_grid_spec p cells R C).length = R := by
  simp [csv_grid_spec]

/-- Row lengths of the claim-side grid. -/
theorem aux_csv_grid_rows (p : PageV) (cells : List Ann) (R C : Nat) :
    ∀ row ∈ csv_grid_spec p cells R C, row.length = C := by
  intro row hrow
  simp only [csv_grid_spec, List.mem_map] at hrow
  obtain ⟨i, _, rfl⟩ := hrow
  simp

/-- The claim-side grid over no cells is the blank grid `Table.csv` starts from. -/
theorem aux_csv_grid_nil (p : PageV) (R C : Nat) :
    csv_grid_spec p [] R C = List.replicate R (List.replicate C "") := by
  apply List.ext_getElem (by simp [csv_grid_spec])
  intro i h1 h2
  simp only [csv_grid_spec, List.getElem_map, List.getElem_range, List.getElem_replicate]
  apply List.ext_getElem (by simp)
  intro j h3 h4
  simp [csv_tile, String.join]

/-- Appending one cell to the cell list extends exactly its anchor tile. -/
theorem aux_csv_tile_append (p : PageV) (pre : List Ann) (c : Ann) (i j : Nat) :
    csv_tile p (pre ++ [c]) i j =
      csv_tile p pre i j ++
        (if c.row_number = some ((i : Int) + 1) ∧ c.column_number = some ((j : Int) + 1)
         then layout_text p c ++ " " else "") := by
  simp only [csv_tile, List.filter_append, List.map_append, aux_join_append]
  congr 1
  by_cases hq : c.row_number = some ((i : Int) + 1) ∧ c.column_number = some ((j : Int) + 1)
  · rw [if_pos hq]
    simp [hq, aux_join_singleton]
  · rw [if_neg hq]
    simp [List.filter, hq, String.join]

/-- Grid tile access of the claim-side grid. -/
theorem aux_grid_spec_getD (p : PageV) (cells : List Ann) (R C i j : Nat)
    (hi : i < R) (hj : j < C) :
    ((csv_grid_spec p cells R C).getD i []).getD j "" = csv_tile p cells i j := by
  have h1 : (csv_grid_spec p cells R C).get? i =
      some ((List.range C).map (csv_tile p cells i)) := by
    simp only [csv_grid_spec]
    exact aux_get_range_map R _ i hi
  have h2 : ((List.range C).map (csv_tile p cells i)).get? j =
      some (csv_tile p cells i j) := aux_get_range_map C _ j hj
  have hrow : (csv_grid_spec p cells R C).getD i [] =
      (List.range C).map (csv_tile p cells i) := by
    rw [List.getD_eq_getElem?_getD, ← List.get?_eq_getElem?, h1, Option.getD_some]
  rw [hrow, List.getD_eq_getElem?_getD, ← List.get?_eq_getElem?, h2, Option.getD_some]

/-- One `csv_step` on the claim-side grid of the processed prefix appends the cell's
text at its anchor tile and nowhere else. -/
theorem aux_csv_step (p : PageV) (R C : Nat) (pre : List Ann) (c : Ann)
    (rn cn : Int) (hrn : c.row_number = some rn) (hcn : c.column_number = some cn)
    (hb1 : 1 ≤ rn) (hb2 : rn ≤ (R : Int)) (hb3 : 1 ≤ cn) (hb4 : cn ≤ (C : Int)) :
    csv_step p (csv_grid_spec p pre R C) c =
      Except.ok (csv_grid_spec p (pre ++ [c]) R C) := by
  have hiR : (rn - 1).toNat < R := by omega
  have hjC : (cn - 1).toNat < C := by omega
  have e1 : py_get (csv_grid_spec p pre R C) (rn - 1) =
      some ((List.range C).map (csv_tile p pre (rn - 1).toNat)) := by
    rw [aux_py_get _ _ (by omega) (by rw [aux_csv_grid_length]; exact hiR)]
    simp only [csv_grid_spec]
    exact aux_get_range_map R _ _ hiR
  have e2 : py_get ((List.range C).map (csv_tile p pre (rn - 1).toNat)) (cn - 1) =
      some (csv_tile p pre (rn - 1).toNat (cn - 1).toNat) := by
    rw [aux_py_get _ _ (by omega) (by simpa using hjC)]
    exact aux_get_range_map C _ _ hjC
  have e3 : py_set ((List.range C).map (csv_tile p pre (rn - 1).toNat)) (cn - 1)
      (csv_tile p pre (rn - 1).toNat (cn - 1).toNat ++ layout_text p c ++ " ") =
      some (((List.range C).map (csv_tile p pre (rn - 1).toNat)).set (cn - 1).toNat
        (csv_tile p pre (rn - 1).toNat (cn - 1).toNat ++ layout_text p c ++ " ")) :=
    aux_py_set _ _ _ (by omega) (by simpa using hjC)
  have e4 : py_set (csv_grid_spec p pre R C) (rn - 1)
      (((List.range C).map (csv_tile p pre (rn - 1).toNat)).set (cn - 1).toNat
        (csv_tile p pre (rn - 1).toNat (cn - 1).toNat ++ layout_text p c ++ " ")) =
      some ((csv_grid_spec p pre R C).set (rn - 1).toNat
        (((List.range C).map (csv_tile p pre (rn - 1).toNat)).set (cn - 1).toNat
          (csv_tile p pre (rn - 1).toNat (cn - 1).toNat ++ layout_text p c ++ " "))) :=
    aux_py_set _ _ _ (by omega) (by rw [aux_csv_grid_length]; exact hiR)
  simp only [csv_step, hrn, hcn, e1, e2, e3, e4, pure, Except.pure]
  congr 1
  rw [aux_set_range_map C]
  conv_lhs => rw [csv_grid_spec]
  rw [aux_set_range_map R]
  simp only [csv_grid_spec]
  apply List.map_congr_left
  intro i2 hi2
  have hi2R : i2 < R := List.mem_range.mp hi2
  by_cases hii : i2 = (rn - 1).toNat
  · rw [if_pos hii]
    apply List.map_congr_left
    intro j2 hj2
    have hj2C : j2 < C := List.mem_range.mp hj2
    rw [aux_csv_tile_append]
    by_cases hjj : j2 = (cn - 1).toNat
    · rw [if_pos hjj]
      subst hii
      subst hjj
      rw [if_pos ⟨by rw [hrn]; congr 1; omega, by rw [hcn]; congr 1; omega⟩]
      rw [String.append_assoc]
    · rw [if_neg hjj]
      subst hii
      rw [if_neg]
      · simp
      · intro hq
        apply hjj
        have := hq.2
        rw [hcn] at this
        injection this with this
        omega
  · rw [if_neg hii]
    apply List.map_congr_left
    intro j2 hj2
    rw [aux_csv_tile_append]
    rw [if_neg]
    · simp
    · intro hq
      apply hii
      have := hq.1
      rw [hrn] at this
      injection this with this
      omega

/-- Folding `csv_step` over in-range cells extends the claim-side grid cell by cell. -/
theorem aux_csv_fold (p : PageV) (R C : Nat) :
    ∀ cells pre : List Ann,
      (∀ c2 ∈ cells, ∃ rn cn : Int, c2.row_number = some rn ∧
        c2.column_number = some cn ∧ 1 ≤ rn ∧ rn ≤ (R : Int) ∧ 1 ≤ cn ∧ cn ≤ (C : Int)) →
      List.foldlM (csv_step p) (csv_grid_spec p pre R C) cells =
        Except.ok (csv_grid_spec p (pre ++ cells) R C) := by
  intro cells
  induction cells with
  | nil =>
    intro pre _
    simp [pure, Except.pure]
  | cons c cs ih =>
    intro pre hc
    obtain ⟨rn, cn, hrn, hcn, hb1, hb2, hb3, hb4⟩ := hc c (by simp)
    rw [List.foldlM_cons, aux_csv_step p R C pre c rn cn hrn hcn hb1 hb2 hb3 hb4]
    have step := ih (pre ++ [c]) (fun c2 h2 => hc c2 (by simp [h2]))
    simpa [Bind.bind, Except.bind] using step

/-- Claim C4. For a table whose row and column counts resolve to the naturals `R` and `C`
and whose every cell is anchored inside the grid, `Table.csv` returns exactly the grid
of `R` rows of `C` tiles in which each tile holds the appended `text + " "` of exactly
the cells anchored there: spanning cells populate only their anchor tile, and tiles
without an anchoring cell stay `""`. -/
theorem C4_table_csv (p : PageV) (t : Ann) (R C : Nat)
    (hR : t.number_of_rows = some (R : Int))
    (hC : t.number_of_columns = some (C : Int))
    (hcells : ∀ c ∈ table_cells p t, ∃ rn cn : Int, c.row_number = some rn ∧
      c.column_number = some cn ∧ 1 ≤ rn ∧ rn ≤ (R : Int) ∧ 1 ≤ cn ∧ cn ≤ (C : Int)) :
    table_csv p t = Except.ok (csv_grid_spec p (table_cells p t) R C) ∧
    (csv_grid_spec p (table_cells p t) R C).length = R ∧
    (∀ row ∈ csv_grid_spec p (table_cells p t) R C, row.length = C) ∧
    (∀ i j : Nat, i < R → j < C →
      ((csv_grid_spec p (table_cells p t) R C).getD i []).getD j "" =
        csv_tile p (table_cells p t) i j) := by
  refine ⟨?_, aux_csv_grid_length p _ R C, aux_csv_grid_rows p _ R C,
    fun i j hi hj => aux_grid_spec_getD p _ R C i j hi hj⟩
  simp only [table_csv, hR, hC, Int.toNat_natCast]
  rw [← aux_csv_grid_nil p R C]
  simpa using aux_csv_fold p R C (table_cells p t) [] hcells

/-- Claim C4, witness. The 2×2 grid table: the cell at `(1, 1)` and the spanning cell at
`(2, 2)` populate exactly their anchor tiles and the other tiles stay `""`. -/
theorem C4_witness :
    table_csv fx_page_grid fx_table_grid =
      Except.ok (csv_grid_spec fx_page_grid (table_cells fx_page_grid fx_table_grid) 2 2) ∧
    csv_grid_spec fx_page_grid (table_cells fx_page_grid fx_table_grid) 2 2 =
      [["x ", ""], ["", " "]] := by
  refine ⟨(C4_table_csv fx_page_grid fx_table_grid 2 2 rfl rfl ?_).1, by rfl⟩
  intro c hc
  have ht : table_cells fx_page_grid fx_table_grid = [fx_cell_11, fx_cell_22] := rfl
  rw [ht] at hc
  simp only [List.mem_cons, List.not_mem_nil, or_false] at hc
  rcases hc with rfl | rfl
  · exact ⟨1, 1, rfl, rfl, by decide, by decide, by decide, by decide⟩
  · exact ⟨2, 2, rfl, rfl, by decide, by decide, by decide, by decide⟩

/-! ### Claim C5 -/

/-- Claim C5, counterexample. A table without cells but with a direct word child:
`Table.words` falls back to the generic `Layout.words` (the word appears), but
`Table.get_ordered_words()` sorts the empty cell list and returns `[]` — it does *not*
fall back to the generic behaviour, which would return the word. -/
theorem C5_counterexample :
    table_cells fx_page_nocells fx_table_nocells = [] ∧
    table_words fx_page_nocells fx_table_nocells =
      layout_words fx_page_nocells fx_table_nocells ∧
    table_get_ordered_words fx_page_nocells fx_table_nocells = [] ∧
    layout_get_ordered_words fx_page_nocells fx_table_nocells = [fx_word_hi] ∧
    table_get_ordered_words fx_page_nocells fx_table_nocells ≠
      layout_get_ordered_words fx_page_nocells fx_table_nocells := by
  exact ⟨rfl, rfl, rfl, rfl, by decide⟩

/-- Claim C5, amended. For every table: with zero cells, `Table.words` falls back to the
generic `Layout.words` while `Table.get_ordered_words()` returns `[]` (no fallback);
with cells, `Table.words` is the concatenation of the cells' word lists, and — when
every cell carries row and column numbers, so the sort cannot raise —
`Table.get_ordered_words()` concatenates the cells' ordered words after stably sorting
the cells by `(row_number, column_number)` (the sorted list is ordered by the grid key
and is a permutation of the cells); the result ignores the table's own reading-order
sub-category. -/
theorem C5_table_words_amended (p : PageV) (t : Ann) :
    (table_cells p t = [] →
      table_words p t = layout_words p t ∧ table_get_ordered_words p t = []) ∧
    (table_cells p t ≠ [] →
      table_words p t = ((table_cells p t).map (layout_words p)).flatten) ∧
    ((∀ c ∈ table_cells p t, c.row_number.isSome ∧ c.column_number.isSome) →
      table_get_ordered_words p t =
        ((py_sort_by_key2 cell_grid_key (table_cells p t)).map
          (layout_get_ordered_words p)).flatten ∧
      List.Sorted (fun a b => (cell_grid_key a).1 < (cell_grid_key b).1 ∨
        ((cell_grid_key a).1 = (cell_grid_key b).1 ∧
          (cell_grid_key a).2 ≤ (cell_grid_key b).2))
        (py_sort_by_key2 cell_grid_key (table_cells p t)) ∧
      (py_sort_by_key2 cell_grid_key (table_cells p t)).Perm (table_cells p t)) ∧
    (t.category_name ≠ p.text_container → ∀ ro2,
      table_get_ordered_words p { t with reading_order := ro2 } =
        table_get_ordered_words p t) := by
  refine ⟨?_, ?_, ?_, ?_⟩
  · intro h
    constructor
    · simp [table_words, h]
    · simp [table_get_ordered_words, h, py_sort_by_key2]
  · intro h
    simp [table_words, List.isEmpty_iff, h]
  · intro h
    have hall : (table_cells p t).all
        (fun c => c.row_number.isSome && c.column_number.isSome) = true := by
      rw [List.all_eq_true]
      intro c hc
      have := h c hc
      simp [this.1, this.2]
    refine ⟨by simp [table_get_ordered_words, hall], ?_, ?_⟩
    · haveI : IsTotal Ann (fun a b => (cell_grid_key a).1 < (cell_grid_key b).1 ∨
          ((cell_grid_key a).1 = (cell_grid_key b).1 ∧
            (cell_grid_key a).2 ≤ (cell_grid_key b).2)) :=
        ⟨fun a b => by omega⟩
      haveI : IsTrans Ann (fun a b => (cell_grid_key a).1 < (cell_grid_key b).1 ∨
          ((cell_grid_key a).1 = (cell_grid_key b).1 ∧
            (cell_grid_key a).2 ≤ (cell_grid_key b).2)) :=
        ⟨fun a b c hab hbc => by omega⟩
      exact List.sorted_insertionSort _ _
    · exact List.perm_insertionSort _ _
  · intro hcat ro2
    have hl : layout_words p { t with reading_order := ro2 } = layout_words p t := by
      simp [layout_words, hcat]
    have hlo : layout_get_ordered_words p { t with reading_order := ro2 } =
        layout_get_ordered_words p t := by
      simp only [layout_get_ordered_words, hl]
    simp only [table_get_ordered_words]
    rw [show table_cells p { t with reading_order := ro2 } = table_cells p t from rfl]
    rw [hlo]

/-- Claim C5, witness. The zero-cell table fixture and the 2×2 grid fixture evaluated
through `C5_table_words_amended`. -/
theorem C5_witness :
    (table_words fx_page_nocells fx_table_nocells =
        layout_words fx_page_nocells fx_table_nocells ∧
      table_get_ordered_words fx_page_nocells fx_table_nocells = []) ∧
    table_words fx_page_grid fx_table_grid =
      ((table_cells fx_page_grid fx_table_grid).map (layout_words fx_page_grid)).flatten ∧
    table_get_ordered_words fx_page_grid fx_table_grid =
      ((py_sort_by_key2 cell_grid_key (table_cells fx_page_grid fx_table_grid)).map
        (layout_get_ordered_words fx_page_grid)).flatten ∧
    table_get_ordered_words fx_page_grid
        { fx_table_grid with reading_order := some 7 } =
      table_get_ordered_words fx_page_grid fx_table_grid ∧
    table_get_ordered_words fx_page_grid fx_table_grid = [fx_word_x] :=
  ⟨(C5_table_words_amended fx_page_nocells fx_table_nocells).1 rfl,
    (C5_table_words_amended fx_page_grid fx_table_grid).2.1 (by decide),
    ((C5_table_words_amended fx_page_grid fx_table_grid).2.2.1 (by decide)).1,
    (C5_table_words_amended fx_page_grid fx_table_grid).2.2.2 (by decide) (some 7),
    by rfl⟩

/-! ### Claim C6 -/

/-- Absence: `list.index` misses exactly the absent elements. -/
theorem aux_py_list_index_none (x : String) (l : List String) (h : x ∉ l) :
    py_list_index x l = none := by
  induction l with
  | nil => rfl
  | cons y ys ih =>
    simp only [List.mem_cons, not_or] at h
    simp only [py_list_index]
    rw [if_neg (fun heq => h.1 heq.symm), ih h.2]
    rfl

/-- A found `list.index` is inside the list. -/
theorem aux_py_list_index_lt (x : String) :
    ∀ (l : List String) (i : Nat), py_list_index x l = some i → i < l.length := by
  intro l
  induction l with
  | nil => intro i h; cases h
  | cons y ys ih =>
    intro i h
    simp only [py_list_index] at h
    by_cases hy : y = x
    · rw [if_pos hy] at h
      injection h with h
      subst h
      simp
    · rw [if_neg hy] at h
      cases hidx : py_list_index x ys with
      | none => rw [hidx] at h; cases h
      | some i2 =>
        rw [hidx] at h
        injection h with h
        subst h
        have := ih i2 hidx
        simp only [List.length_cons]
        omega

/-- Popping an entry and inserting a value at the same valid position is a single-entry
replacement. -/
theorem aux_erase_insert_set (v : String) :
    ∀ (l : List String) (i : Nat), i < l.length →
      (l.eraseIdx i).insertIdx i v = l.set i v := by
  intro l
  induction l with
  | nil => intro i h; cases h
  | cons y ys ih =>
    intro i h
    cases i with
    | zero => rfl
    | succ i2 =>
      have : i2 < ys.length := by simpa using h
      show y :: (ys.eraseIdx i2).insertIdx i2 v = y :: ys.set i2 v
      rw [ih i2 this]

/-- One substitution step keeps the working list length. -/
theorem aux_html_step_length (p : PageV) (l : List String) (c : Ann) :
    (html_step p l c).length = l.length := by
  simp only [html_step]
  cases hidx : py_list_index c.annotation_id l with
  | none => rfl
  | some i =>
    show (List.insertIdx i (layout_text p c) (l.eraseIdx i)).length = l.length
    rw [aux_erase_insert_set _ l i (aux_py_list_index_lt _ l i hidx)]
    simp

/-- The whole substitution fold keeps the template length. -/
theorem aux_html_fold_length (p : PageV) :
    ∀ (cells : List Ann) (l : List String),
      (cells.foldl (html_step p) l).length = l.length := by
  intro cells
  induction cells with
  | nil => intro l; rfl
  | cons c cs ih =>
    intro l
    rw [List.foldl_cons, ih (html_step p l c), aux_html_step_length]

/-- Claim C6. `Table.html` substitutes over the stored template list: each cell whose id
occurs in the working list replaces exactly that single entry with the cell's text (pop
then insert at the found index is a single-entry `set`); a cell whose id is absent
leaves the list unchanged (the `ValueError` is recovered with a warning, never fatal);
the fold preserves the template length, and the result is the join of the final list. -/
theorem C6_table_html (p : PageV) (t : Ann) :
    table_html p t =
      String.join ((table_cells p t).foldl (html_step p) (t.html_template.getD [])) ∧
    (∀ (l : List String) (c : Ann), c.annotation_id ∉ l → html_step p l c = l) ∧
    (∀ (l : List String) (c : Ann) (i : Nat), py_list_index c.annotation_id l = some i →
      html_step p l c = l.set i (layout_text p c)) ∧
    ((table_cells p t).foldl (html_step p) (t.html_template.getD [])).length =
      (t.html_template.getD []).length := by
  refine ⟨rfl, ?_, ?_, aux_html_fold_length p _ _⟩
  · intro l c h
    simp only [html_step]
    rw [aux_py_list_index_none _ _ h]
  · intro l c i h
    simp only [html_step]
    rw [h]
    show List.insertIdx i (layout_text p c) (l.eraseIdx i) = l.set i (layout_text p c)
    rw [aux_erase_insert_set _ l i (aux_py_list_index_lt _ l i h)]

/-- Claim C6, witness. The html fixture: the present cell id is replaced in place, the
orphan cell id is skipped without failing, and the joined result reconstructs the
table markup. -/
theorem C6_witness :
    table_html fx_page_html fx_table_html = "<table>y</table>" ∧
    html_step fx_page_html ["<table>", "y", "</table>"] fx_cell_orphan =
      ["<table>", "y", "</table>"] ∧
    html_step fx_page_html ["<table>", "c6", "</table>"] fx_cell_html =
      ["<table>", "c6", "</table>"].set 1 (layout_text fx_page_html fx_cell_html) ∧
    ((table_cells fx_page_html fx_table_html).foldl (html_step fx_page_html)
      (fx_table_html.html_template.getD [])).length = 3 :=
  ⟨by rfl,
    (C6_table_html fx_page_html fx_table_html).2.1 _ _ (by decide),
    (C6_table_html fx_page_html fx_table_html).2.2.1 _ _ 1 (by rfl),
    by rw [(C6_table_html fx_page_html fx_table_html).2.2.2]; rfl⟩

/-! ### Claim C10 -/

/-- Claim C10. `Table.html` substitutes on a copy of the stored template: the annotation
(and with it the stored `html` container value) comes back from the read exactly as it
went in, the returned string is the plain `Table.html` value, and a second read of the
unchanged table returns the same string. -/
theorem C10_html_pure (p : PageV) (t : Ann) :
    (table_html_with_store p t).2 = t ∧
    (table_html_with_store p t).1 = table_html p t ∧
    (table_html_with_store p (table_html_with_store p t).2).1 =
      (table_html_with_store p t).1 :=
  ⟨rfl, rfl, rfl⟩

/-! ### Claim C7 -/

/-- A successful dictionary lookup means the key is among the stored keys. -/
theorem aux_dict_get_mem (k : String) :
    ∀ (l : List (String × SubCat)) (v : SubCat), dict_get k l = some v →
      k ∈ l.map Prod.fst := by
  intro l
  induction l with
  | nil => intro v h; cases h
  | cons kv rest ih =>
    intro v h
    obtain ⟨k2, v2⟩ := kv
    simp only [dict_get] at h
    by_cases hk : k2 = k
    · subst hk
      simp
    · rw [if_neg hk] at h
      simp only [List.map_cons, List.mem_cons]
      exact Or.inr (ih v h)

/-- Claim C7. `ImageAnnotationBaseView.__getattr__`: an unregistered name raises the
unsupported-attribute error; a registered name that hits a sub-category resolves to the
sub-category's category name when that name differs from the requested key, to the
stored value for a container, and to the numeric category id for a plain category
reference; a registered name that hits neither a sub-category nor a summary
sub-category yields the explicit no-value result rather than an error. -/
theorem C7_getattr_view :
    (∀ (a : RawAnn) (item : String), item ∉ attribute_names a →
      getattr_view a item = Except.error ("Attribute " ++ item ++ " is not supported")) ∧
    (∀ (a : RawAnn) (item : String) (sc : SubCat),
      dict_get item a.sub_categories = some sc →
      item ∈ attribute_names a ∧
      getattr_view a item = Except.ok (resolve_sub_cat item sc) ∧
      (sc.name ≠ item → resolve_sub_cat item sc = some (AttrValue.str sc.name)) ∧
      (∀ n : Int, sc = SubCat.cat item n →
        resolve_sub_cat item sc = some (AttrValue.int n)) ∧
      (∀ (n : Int) (v : AttrValue), sc = SubCat.container item n v →
        resolve_sub_cat item sc = some v)) ∧
    (∀ (a : RawAnn) (item : String), item ∈ attribute_names a →
      dict_get item a.sub_categories = none →
      (∀ s, a.summary = some s → dict_get item s = none) →
      getattr_view a item = Except.ok none) := by
  refine ⟨?_, ?_, ?_⟩
  · intro a item h
    simp only [getattr_view]
    rw [if_pos h]
  · intro a item sc hd
    have hmem : item ∈ attribute_names a := by
      simp only [attribute_names, List.mem_append]
      exact Or.inl (Or.inr (aux_dict_get_mem item a.sub_categories sc hd))
    refine ⟨hmem, ?_, ?_, ?_, ?_⟩
    · simp only [getattr_view]
      rw [if_neg (by simpa using hmem), hd]
    · intro hne
      simp only [resolve_sub_cat]
      rw [if_pos (fun heq => hne heq.symm)]
    · intro n hsc
      subst hsc
      simp only [resolve_sub_cat, SubCat.name]
      rw [if_neg (fun hne => hne rfl)]
    · intro n v hsc
      subst hsc
      simp only [resolve_sub_cat, SubCat.name]
      rw [if_neg (fun hne => hne rfl)]
  · intro a item hmem hnone hsum
    cases hs : a.summary with
    | none =>
      simp only [getattr_view, hnone, hs]
      rw [if_neg (by simpa using hmem)]
    | some s =>
      simp only [getattr_view, hnone, hs, hsum s hs]
      rw [if_neg (by simpa using hmem)]

/-- Claim C7, witness. The raw-annotation fixture: an unregistered name errors, a plain
sub-category returns its id, an aliased sub-category returns its resolved name, a
container returns its value, and a registered-but-unset name returns the no-value
result. -/
theorem C7_witness :
    getattr_view fx_raw "bogus" =
      Except.error ("Attribute " ++ "bogus" ++ " is not supported") ∧
    getattr_view fx_raw "reading_order" = Except.ok (some (AttrValue.int 2)) ∧
    getattr_view fx_raw "token_tag" = Except.ok (some (AttrValue.str "B-header")) ∧
    getattr_view fx_raw "characters" = Except.ok (some (AttrValue.str "foo")) ∧
    getattr_view fx_raw "words" = Except.ok none :=
  ⟨C7_getattr_view.1 fx_raw "bogus" (by decide),
    (C7_getattr_view.2.1 fx_raw "reading_order" (SubCat.cat "reading_order" 2)
      rfl).2.1.trans rfl,
    (C7_getattr_view.2.1 fx_raw "token_tag" (SubCat.cat "B-header" 5) rfl).2.1.trans rfl,
    (C7_getattr_view.2.1 fx_raw "characters"
      (SubCat.container "characters" 1 (AttrValue.str "foo")) rfl).2.1.trans rfl,
    C7_getattr_view.2.2 fx_raw "words" (by decide) rfl
      (fun s hs => by injection hs with hs; rw [← hs]; rfl)⟩

/-! ### Claim C8 -/

/-- Claim C8, counterexample. A layout block whose two words share reading order `1`:
every word carries a reading order, yet `get_ordered_words()` is the stable
`[wa, wb]`, which is *not* strictly ascending in the reading-order value. -/
theorem C8_counterexample :
    layout_words fx_page_ties fx_layout_ties = [fx_word_ro1a, fx_word_ro1b] ∧
    (∀ w ∈ layout_words fx_page_ties fx_layout_ties, w.reading_order ≠ none) ∧
    layout_get_ordered_words fx_page_ties fx_layout_ties =
      [fx_word_ro1a, fx_word_ro1b] ∧
    ¬ List.Chain' (fun x y => ro_key x < ro_key y)
      (layout_get_ordered_words fx_page_ties fx_layout_ties) := by
  refine ⟨rfl, by decide, rfl, ?_⟩
  intro hch
  have hch2 : List.Chain' (fun x y => ro_key x < ro_key y)
      [fx_word_ro1a, fx_word_ro1b] := hch
  rw [List.chain'_cons] at hch2
  exact absurd hch2.1 (by decide)

/-- Claim C8, amended. `Layout.get_ordered_words()` is a stable ascending sort of exactly
the words with non-null reading order: it is a permutation of that sublist, it is
non-decreasing in the reading-order key, words with null reading order never appear in
it (but stay in `words`), and when the reading orders of the ordered words are pairwise
distinct the result is strictly ascending. -/
theorem C8_ordered_words_amended (p : PageV) (a : Ann) :
    (layout_get_ordered_words p a).Perm
      ((layout_words p a).filter (fun w => w.reading_order ≠ none)) ∧
    List.Sorted (fun x y => ro_key x ≤ ro_key y) (layout_get_ordered_words p a) ∧
    (∀ w ∈ layout_words p a, w.reading_order = none →
      w ∉ layout_get_ordered_words p a) ∧
    (∀ w ∈ layout_get_ordered_words p a, w.reading_order ≠ none) ∧
    (((layout_words p a).filter (fun w => w.reading_order ≠ none)).Pairwise
        (fun x y => ro_key x ≠ ro_key y) →
      List.Sorted (fun x y => ro_key x < ro_key y) (layout_get_ordered_words p a)) := by
  have hperm : (layout_get_ordered_words p a).Perm
      ((layout_words p a).filter (fun w => w.reading_order ≠ none)) :=
    List.perm_insertionSort _ _
  have hsorted : List.Sorted (fun x y => ro_key x ≤ ro_key y)
      (layout_get_ordered_words p a) := by
    haveI : IsTotal Ann (fun x y => ro_key x ≤ ro_key y) := ⟨fun x y => le_total _ _⟩
    haveI : IsTrans Ann (fun x y => ro_key x ≤ ro_key y) := ⟨fun x y z => le_trans⟩
    exact List.sorted_insertionSort _ _
  have hmem : ∀ w ∈ layout_get_ordered_words p a, w.reading_order ≠ none := by
    intro w hw
    have := hperm.mem_iff.mp hw
    have := (List.mem_filter.mp this).2
    simpa using this
  refine ⟨hperm, hsorted, ?_, hmem, ?_⟩
  · intro w _ hnone hw
    exact (hmem w hw) hnone
  · intro hdist
    have hne : (layout_get_ordered_words p a).Pairwise (fun x y => ro_key x ≠ ro_key y) :=
      (hperm.pairwise_iff (fun h => Ne.symm h)).mpr hdist
    exact (hsorted.and hne).imp (fun h => lt_of_le_of_ne h.1 h.2)

/-- Claim C8, witness. The mixed layout block: the null-reading-order word stays in
`words` but not in the ordered list, and the distinct reading orders come out strictly
ascending. -/
theorem C8_witness :
    layout_words fx_page_mix fx_layout_mix = [fx_word_ro2, fx_word_nro, fx_word_ro1a] ∧
    layout_get_ordered_words fx_page_mix fx_layout_mix = [fx_word_ro1a, fx_word_ro2] ∧
    (layout_get_ordered_words fx_page_mix fx_layout_mix).Perm
      ((layout_words fx_page_mix fx_layout_mix).filter
        (fun w => w.reading_order ≠ none)) ∧
    List.Sorted (fun x y => ro_key x ≤ ro_key y)
      (layout_get_ordered_words fx_page_mix fx_layout_mix) ∧
    fx_word_nro ∉ layout_get_ordered_words fx_page_mix fx_layout_mix ∧
    List.Sorted (fun x y => ro_key x < ro_key y)
      (layout_get_ordered_words fx_page_mix fx_layout_mix) := by
  have h := C8_ordered_words_amended fx_page_mix fx_layout_mix
  exact ⟨rfl, rfl, h.1, h.2.1, h.2.2.1 fx_word_nro (by decide) rfl, h.2.2.2.2 (by decide)⟩

/-! ### Claim C9 -/

/-- Claim C9, counterexample. A soft-deleted word annotation: `Page.words` excludes it,
but `Layout.words` *on its own view* returns `[self]` without consulting the `active`
flag, so the inactive annotation does appear in a view collection. -/
theorem C9_counterexample :
    fx_word_dead.active = false ∧
    layout_words fx_page_dead fx_word_dead = [fx_word_dead] ∧
    fx_word_dead ∈ layout_words fx_page_dead fx_word_dead ∧
    fx_page_dead.words = [] := by
  exact ⟨rfl, rfl, by decide, rfl⟩

/-- Claim C9, amended. An annotation with `active = false` never appears in any collection
that goes through `Page.get_annotation` — `Page.layouts`, `Page.tables`, `Page.words`,
`Table.cells`/`rows`/`columns`, and `Layout.words` of any view whose own category is
not the text container — even when its id is listed in a child relationship or its
category matches the request; the only exception is a text-container view's own
singleton `words` list, which returns `[self]` regardless of the flag. -/
theorem C9_inactive_excluded (p : PageV) (cats : Option (List String))
    (ids : Option (List String)) (a : Ann) (h : a.active = false) :
    a ∉ get_anns p cats ids ∧
    a ∉ p.layouts ∧ a ∉ p.tables ∧ a ∉ p.words ∧
    (∀ b : Ann, b.category_name ≠ p.text_container → a ∉ layout_words p b) ∧
    (∀ b : Ann, a ∉ table_cells p b ∧ a ∉ table_rows p b ∧ a ∉ table_columns p b) := by
  have hcore : ∀ cats2 ids2, a ∉ get_anns p cats2 ids2 := by
    intro cats2 ids2 hmem
    have h1 : a ∈ p.annotations.filter (fun x => x.active) := by
      simp only [get_anns] at hmem
      cases cats2 with
      | none =>
        cases ids2 with
        | none => exact hmem
        | some ids3 => exact List.mem_of_mem_filter hmem
      | some cats3 =>
        cases ids2 with
        | none => exact List.mem_of_mem_filter hmem
        | some ids3 => exact List.mem_of_mem_filter (List.mem_of_mem_filter hmem)
    have h2 := (List.mem_filter.mp h1).2
    rw [h] at h2
    cases h2
  refine ⟨hcore cats ids, hcore _ _, hcore _ _, hcore _ _, ?_, ?_⟩
  · intro b hb
    simp only [layout_words]
    rw [if_pos hb]
    exact hcore _ _
  · intro b
    exact ⟨hcore _ _, hcore _ _, hcore _ _⟩

/-- Claim C9, witness. The soft-deleted word is excluded from an explicit id- and
category-matched `get_annotation` query, from `Page.words`, and from the word list of
every other view. -/
theorem C9_witness :
    fx_word_dead ∉ get_anns fx_page_dead (some ["word"]) (some ["wd"]) ∧
    fx_word_dead ∉ fx_page_dead.words ∧
    (∀ b : Ann, b.category_name ≠ fx_page_dead.text_container →
      fx_word_dead ∉ layout_words fx_page_dead b) := by
  have h := C9_inactive_excluded fx_page_dead (some ["word"]) (some ["wd"])
    fx_word_dead rfl
  exact ⟨h.1, h.2.2.2.1, h.2.2.2.2.1⟩
